import Mathlib

/-!
Verification of the AED Patient Data Management app (`src/app.py`).

The app is a single script operating on a pandas DataFrame `df` loaded from
`AED4weeks.csv`.  We embed the table as a list of records, each record one
row of the dataframe (schema from §6 of the spec and the column accesses in
the code), and each user action of the script as a Lean function on that
table.  pandas `NaN` values (produced by `Series.map` on an unmapped key and
by `Series.mean` on an empty column) are modelled as `Option.none`.
-/

set_option autoImplicit false

/-- One row of the in-memory dataframe.  The seven base columns come from
`AED4weeks.csv` (`ID, Age, LoS, noofinvestigation, nooftreatment,
noofpatients, Breachornot`); `breach_binary` is the derived `Breach_binary`
column added at load (`app.py` line 37).  `none` models a pandas `NaN`. -/
structure PatientRecord where
  id : String
  age : Int
  los : Int
  noofinvestigation : Int
  nooftreatment : Int
  noofpatients : Int
  breachornot : String
  breach_binary : Option Nat
deriving Repr, DecidableEq

/-- Lines 37–40: `df["Breachornot"].map({"non-breach": 0, "breach": 1})`.
`Series.map` with a dict sends an unmapped key to `NaN` (here `none`). -/
def breachMap (s : String) : Option Nat :=
  if s = "non-breach" then some 0
  else if s = "breach" then some 1
  else none

/-- Effect of line 37 on one row: overwrite the `Breach_binary` cell with the
value derived from `Breachornot`. -/
def deriveRow (r : PatientRecord) : PatientRecord :=
  { r with breach_binary := breachMap r.breachornot }

/-- `load()`: `pd.read_csv` (line 34) followed by the `Breach_binary`
derivation (lines 37–40).  At the record level the CSV read yields the rows
of the backing file; line 37 then overwrites (or creates) the derived cell
of every row. -/
def loadTable (rows : List PatientRecord) : List PatientRecord :=
  rows.map deriveRow

/-- `persist()`: `df.to_csv(..., index=False)` (lines 185 and 209) writes
every column of the in-memory dataframe — including `Breach_binary` — row by
row, in table order.  At the record level the written file is the table
itself. -/
def persistTable (t : List PatientRecord) : List PatientRecord :=
  t

/-- Result of the Dashboard metrics (lines 70–72).  `mean_length_of_stay`
is `none` on an empty table, modelling the `NaN` that `Series.mean` returns
there. -/
structure DashboardSummary where
  total_count : Nat
  breach_count : Int
  mean_length_of_stay : Option ℚ
deriving Repr, DecidableEq

/-- Python `round` to an integer: round-half-to-even. -/
def bankersRound (q : ℚ) : Int :=
  let f : Int := ⌊q⌋
  if q - f < 1/2 then f
  else if 1/2 < q - f then f + 1
  else if f % 2 = 0 then f else f + 1

/-- Python `round(x, 2)`: round half-to-even at the second decimal place. -/
def round2 (q : ℚ) : ℚ :=
  (bankersRound (q * 100) : ℚ) / 100

/-- `summarize()` — the Dashboard metrics (lines 70–72):
`len(df)`, `int(df["Breach_binary"].sum())` (pandas sum skips `NaN`,
so a `none` cell contributes 0), and `round(df["LoS"].mean(), 2)`. -/
def summarize (t : List PatientRecord) : DashboardSummary :=
  { total_count := t.length
  , breach_count := ((t.map fun r => ((r.breach_binary.getD 0 : Nat) : Int)).sum)
  , mean_length_of_stay :=
      if t.isEmpty then none
      else some (round2 ((t.map fun r => (r.los : ℚ)).sum / (t.length : ℚ))) }

/-- The three-row table of spec §8: `Breachornot` values
`[non-breach, breach, breach]`, `LoS` values `[10, 20, 30]`, as produced by
`load` (so `Breach_binary` is derived). -/
def threeRows : List PatientRecord :=
  loadTable
    [ { id := "P1", age := 30, los := 10, noofinvestigation := 1,
        nooftreatment := 1, noofpatients := 5, breachornot := "non-breach",
        breach_binary := none }
    , { id := "P2", age := 41, los := 20, noofinvestigation := 2,
        nooftreatment := 0, noofpatients := 6, breachornot := "breach",
        breach_binary := none }
    , { id := "P3", age := 52, los := 30, noofinvestigation := 0,
        nooftreatment := 3, noofpatients := 7, breachornot := "breach",
        breach_binary := none } ]

/-- C1: for every table, `summarize()` returns `total_count` = number of
rows, `breach_count` = the sum of `breach_binary` over all rows, and (on a
non-empty table) `mean_length_of_stay` = the arithmetic mean of
`length_of_stay` rounded to 2 decimal places; in particular on the
three-row table of §8 it yields `total_count = 3`, `breach_count = 2`,
`mean_length_of_stay = 20.0`. -/
theorem summarize_correct (t : List PatientRecord) :
    (summarize t).total_count = t.length ∧
    (summarize t).breach_count
      = ((t.map fun r => ((r.breach_binary.getD 0 : Nat) : Int)).sum) ∧
    (¬ t = [] →
      (summarize t).mean_length_of_stay
        = some (round2 ((t.map fun r => (r.los : ℚ)).sum / (t.length : ℚ)))) ∧
    summarize threeRows
      = { total_count := 3, breach_count := 2, mean_length_of_stay := some 20 } := by
  refine ⟨rfl, rfl, ?_, ?_⟩
  · intro h
    simp [summarize, h]
  · simp [summarize, threeRows, loadTable, deriveRow, breachMap, round2,
      bankersRound, DashboardSummary.mk.injEq]
    norm_num

/-- Witness for C1: the mean conjunct of `summarize_correct` instantiated at
the concrete three-row table, whose non-emptiness is discharged there. -/
theorem summarize_correct_witness :
    (summarize threeRows).mean_length_of_stay
      = some (round2 ((threeRows.map fun r => (r.los : ℚ)).sum
          / (threeRows.length : ℚ))) :=
  (summarize_correct threeRows).2.2.1 (by decide)

/-- C9: `summarize()` on the empty table is defined in every component and
raises no exception: the counts are 0 and the mean is the `NaN` that pandas
`Series.mean` returns for an empty column (modelled `none`) — division by
zero never occurs. -/
theorem summarize_empty_defined :
    summarize [] = { total_count := 0, breach_count := 0,
                     mean_length_of_stay := none } := by
  decide

/-- Search Patient by ID (line 101): the boolean-mask selection
`df[df["ID"] == patient_id]` — every row whose `ID` cell equals the input
string exactly. -/
def searchById (patient_id : String) (t : List PatientRecord) :
    List PatientRecord :=
  t.filter fun r => r.id = patient_id

/-- `find_by_id`: the Modify Patient Data lookup (lines 147–148) takes
`.iloc[0]` of the selection — its first row — and the Search page treats an
empty selection as not found (line 103). -/
def findById (patient_id : String) (t : List PatientRecord) :
    Option PatientRecord :=
  (searchById patient_id t).head?

/-- C7: `find_by_id` matches the `id` field by exact string equality: it
returns `none` exactly when no row's id equals the input, and any record it
returns has exactly the requested id and is the first match — every row
before it in the table has a different id. -/
theorem findById_first (patient_id : String) (t : List PatientRecord) :
    (findById patient_id t = none ↔ ∀ r ∈ t, ¬ r.id = patient_id) ∧
    (∀ r, findById patient_id t = some r →
      r.id = patient_id ∧
      ∃ l1 l2, t = l1 ++ r :: l2 ∧ ∀ x ∈ l1, ¬ x.id = patient_id) := by
  induction t with
  | nil => simp [findById, searchById]
  | cons a l ih =>
    by_cases ha : a.id = patient_id
    · refine ⟨?_, ?_⟩
      · simp [findById, searchById, ha]
      · intro r hr
        have hr' : r = a := by
          simp [findById, searchById, ha] at hr
          exact hr.symm
        subst hr'
        exact ⟨ha, [], l, rfl, by simp⟩
    · have hstep : findById patient_id (a :: l) = findById patient_id l := by
        simp [findById, searchById, ha]
      refine ⟨?_, ?_⟩
      · rw [hstep, ih.1]
        simp [ha]
      · intro r hr
        rw [hstep] at hr
        obtain ⟨hid, l1, l2, hsplit, hfirst⟩ := ih.2 r hr
        refine ⟨hid, a :: l1, l2, by simp [hsplit], ?_⟩
        intro x hx
        rcases List.mem_cons.mp hx with h | h
        · exact h ▸ ha
        · exact hfirst x h

/-- Witness for C7: `findById_first` applied at a concrete id absent from
the three-row table, its inner no-match hypothesis discharged by `decide`. -/
theorem findById_first_witness : findById "P9" threeRows = none :=
  (findById_first "P9" threeRows).1.mpr (by decide)

/-- The allow-list `numeric_columns` of lines 117–120:
`["Age", "LoS", "noofinvestigation", "nooftreatment", "noofpatients"]`. -/
inductive FilterColumn where
  | age
  | los
  | noofinvestigation
  | nooftreatment
  | noofpatients
deriving Repr, DecidableEq

/-- The cell `df[column]` of one row, for a column of the allow-list. -/
def colValue : FilterColumn → PatientRecord → Int
  | FilterColumn.age, r => r.age
  | FilterColumn.los, r => r.los
  | FilterColumn.noofinvestigation, r => r.noofinvestigation
  | FilterColumn.nooftreatment, r => r.nooftreatment
  | FilterColumn.noofpatients, r => r.noofpatients

/-- `filter_range` — Filter Patients (lines 132–135): boolean-mask
selection `df[(df[column] >= low) & (df[column] <= high)]`. -/
def filterRange (c : FilterColumn) (low high : Int)
    (t : List PatientRecord) : List PatientRecord :=
  t.filter fun r => low ≤ colValue c r ∧ colValue c r ≤ high

/-- C3: for every column of the allow-list and every pair of bounds,
`filter_range` returns exactly the rows of the table whose selected cell
lies between the bounds, inclusive on both ends, and excludes every other
row. -/
theorem filterRange_inclusive (c : FilterColumn) (low high : Int)
    (t : List PatientRecord) (r : PatientRecord) :
    r ∈ filterRange c low high t
      ↔ r ∈ t ∧ low ≤ colValue c r ∧ colValue c r ≤ high := by
  simp [filterRange, List.mem_filter]

/-- Witness for C3: `filterRange_inclusive` at concrete bounds on the
three-row table; the membership and bound hypotheses of the reverse
direction are discharged by `decide`. -/
theorem filterRange_inclusive_witness :
    { id := "P2", age := 41, los := 20, noofinvestigation := 2,
      nooftreatment := 0, noofpatients := 6, breachornot := "breach",
      breach_binary := some 1 : PatientRecord }
      ∈ filterRange FilterColumn.age 40 60 threeRows :=
  (filterRange_inclusive FilterColumn.age 40 60 threeRows _).mpr
    ⟨by decide, by decide, by decide⟩

/-- Outcome shown by the Delete Patient Data page: the success message, the
"Patient ID not found" warning, or the "Please confirm deletion" warning. -/
inductive DeleteOutcome where
  | deleted
  | notFound
  | needConfirm
deriving Repr, DecidableEq

/-- The in-memory table together with the record-level contents of the
backing file `AED4weeks.csv`. -/
structure StoreState where
  table : List PatientRecord
  file : List PatientRecord
deriving Repr, DecidableEq

/-- Delete Patient Data (lines 204–214): the confirmation checkbox is
checked first; when the id occurs in the `ID` column,
`df = df[df["ID"] != patient_id]` keeps exactly the rows with a different
id and `df.to_csv(DATA_FILE, index=False)` rewrites the whole backing file
from the remaining table (directly, without the temp-file step of the
update path); otherwise nothing is touched. -/
def deleteAction (confirm : Bool) (patient_id : String) (s : StoreState) :
    DeleteOutcome × StoreState :=
  if !confirm then (DeleteOutcome.needConfirm, s)
  else if s.table.any (fun r => r.id = patient_id) then
    let t2 := s.table.filter fun r => ¬ r.id = patient_id
    (DeleteOutcome.deleted, { table := t2, file := persistTable t2 })
  else (DeleteOutcome.notFound, s)

/-- C2: confirmed delete removes every row whose id equals the given value
— not just the first: the surviving table is the filter of the original,
zero rows with that id remain — and the entire remaining table is
rewritten to the backing file; with zero matching rows it reports the
informational not-found outcome and leaves both the in-memory table and
the backing file completely unchanged. -/
theorem delete_removes_all (patient_id : String) (s : StoreState) :
    ((∃ r ∈ s.table, r.id = patient_id) →
      (deleteAction true patient_id s).1 = DeleteOutcome.deleted ∧
      (deleteAction true patient_id s).2.table
        = s.table.filter (fun r => ¬ r.id = patient_id) ∧
      ((deleteAction true patient_id s).2.table.countP
          (fun r => r.id = patient_id)) = 0 ∧
      (∀ r ∈ (deleteAction true patient_id s).2.table, ¬ r.id = patient_id) ∧
      (deleteAction true patient_id s).2.file
        = (deleteAction true patient_id s).2.table) ∧
    ((∀ r ∈ s.table, ¬ r.id = patient_id) →
      (deleteAction true patient_id s).1 = DeleteOutcome.notFound ∧
      (deleteAction true patient_id s).2.table = s.table ∧
      (deleteAction true patient_id s).2.file = s.file) := by
  constructor
  · intro h
    have hany : (s.table.any fun r => r.id = patient_id) = true := by
      simp only [List.any_eq_true, decide_eq_true_eq]
      exact h
    have hsurv : ∀ r ∈ (deleteAction true patient_id s).2.table,
        ¬ r.id = patient_id := by
      intro r hr
      have : r ∈ s.table.filter fun x => ¬ x.id = patient_id := by
        simpa [deleteAction, hany] using hr
      simpa using (List.mem_filter.mp this).2
    refine ⟨by simp [deleteAction, hany], by simp [deleteAction, hany],
      ?_, hsurv, by simp [deleteAction, hany, persistTable]⟩
    exact List.countP_eq_zero.mpr (by
      intro r hr
      simpa using hsurv r hr)
  · intro h
    have hany : (s.table.any fun r => r.id = patient_id) = false := by
      simp only [List.any_eq_false, decide_eq_true_eq]
      exact h
    refine ⟨by simp [deleteAction, hany], by simp [deleteAction, hany],
      by simp [deleteAction, hany]⟩

/-- Witness for C2: `delete_removes_all` applied at two concrete stores,
one with matching rows and one without, discharging the existence
hypothesis of the first branch and the no-match hypothesis of the second
by `decide`. -/
theorem delete_removes_all_witness :
    ((deleteAction true "P2" { table := threeRows, file := threeRows }).1
        = DeleteOutcome.deleted ∧
      (deleteAction true "P2" { table := threeRows, file := threeRows }).2.file
        = (deleteAction true "P2"
            { table := threeRows, file := threeRows }).2.table) ∧
    ((deleteAction true "P9" { table := threeRows, file := threeRows }).1
        = DeleteOutcome.notFound ∧
      (deleteAction true "P9" { table := threeRows, file := threeRows }).2.table
        = threeRows) :=
  ⟨⟨((delete_removes_all "P2" { table := threeRows, file := threeRows }).1
      (by decide)).1,
    ((delete_removes_all "P2" { table := threeRows, file := threeRows }).1
      (by decide)).2.2.2.2⟩,
   ⟨((delete_removes_all "P9" { table := threeRows, file := threeRows }).2
      (by decide)).1,
    ((delete_removes_all "P9" { table := threeRows, file := threeRows }).2
      (by decide)).2.1⟩⟩

/-- C8: a delete attempt with the confirmation checkbox unchecked is
rejected with the informational warning outcome and changes neither the
in-memory table nor the backing file, whether or not the id matches. -/
theorem delete_requires_confirm (patient_id : String) (s : StoreState) :
    deleteAction false patient_id s = (DeleteOutcome.needConfirm, s) := rfl

/-- C10: confirmed delete keeps exactly the rows with a different id, as a
sublist of the original table — so the surviving rows keep their relative
order and every field (including `breach_binary`) exactly as before. -/
theorem delete_preserves_rest (patient_id : String) (s : StoreState) :
    (deleteAction true patient_id s).2.table
      = s.table.filter (fun r => ¬ r.id = patient_id) ∧
    ((deleteAction true patient_id s).2.table).Sublist s.table := by
  have key : (deleteAction true patient_id s).2.table
      = s.table.filter (fun r => ¬ r.id = patient_id) := by
    by_cases hany : (s.table.any fun r => r.id = patient_id) = true
    · simp [deleteAction, hany]
    · have hall : ∀ r ∈ s.table, ¬ r.id = patient_id := by
        have := hany
        simp only [List.any_eq_true, decide_eq_true_eq] at this
        exact fun r hr hid => this ⟨r, hr, hid⟩
      simp only [deleteAction, Bool.not_true, Bool.false_eq_true, if_false,
        Bool.not_false, if_true, eq_false_of_ne_true hany]
      exact (List.filter_eq_self.mpr (by
        intro a ha
        simp [hall a ha])).symm
  exact ⟨key, key ▸ List.filter_sublist s.table⟩

/-- The five form values of the Modify Patient Data page (lines 153–170). -/
structure UpdateFields where
  age : Int
  los : Int
  noofinvestigation : Int
  nooftreatment : Int
  breachornot : String
deriving Repr, DecidableEq

/-- Lines 177–181: the five `df.at[row_index, ...]` cell writes on one row.
The `ID`, `noofpatients` and `Breach_binary` cells are not written. -/
def applyUpdate (f : UpdateFields) (r : PatientRecord) : PatientRecord :=
  { r with age := f.age, los := f.los,
           noofinvestigation := f.noofinvestigation,
           nooftreatment := f.nooftreatment,
           breachornot := f.breachornot }

/-- Update Record (lines 174–181):
`row_index = df.index[df["ID"] == patient_id][0]` is the position of the
first matching row, and the five cells there are overwritten; every other
row is untouched. -/
def updateAction (patient_id : String) (f : UpdateFields) :
    List PatientRecord → List PatientRecord
  | [] => []
  | r :: rs =>
    if r.id = patient_id then applyUpdate f r :: rs
    else r :: updateAction patient_id f rs

/-- A concrete set of form values used to exercise the update path. -/
def sampleFields : UpdateFields :=
  { age := 45, los := 25, noofinvestigation := 3, nooftreatment := 1,
    breachornot := "non-breach" }

/-- `updateAction` replaces the row at the first matching index and nothing
else: it equals `set` at `findIdx`. -/
theorem updateAction_eq_set (patient_id : String) (f : UpdateFields)
    (t : List PatientRecord) (i : Nat) (ti : PatientRecord)
    (hfind : t.findIdx (fun r => r.id = patient_id) = i)
    (hget : t[i]? = some ti) :
    updateAction patient_id f t = t.set i (applyUpdate f ti) := by
  induction t generalizing i with
  | nil => simp at hget
  | cons a l ih =>
    by_cases ha : a.id = patient_id
    · have hi0 : i = 0 := by
        have := hfind
        simp [List.findIdx_cons, ha] at this
        exact this.symm
      subst hi0
      have hta : ti = a := by
        have := hget
        simp at this
        exact this.symm
      subst hta
      simp [updateAction, ha]
    · have hstep : (l.findIdx fun r => r.id = patient_id) + 1 = i := by
        simpa [List.findIdx_cons, ha] using hfind
      obtain ⟨n, rfl⟩ : ∃ n, i = n + 1 := ⟨_, hstep.symm⟩
      have hfind' : (l.findIdx fun r => r.id = patient_id) = n :=
        Nat.succ_injective hstep
      have hget' : l[n]? = some ti := by simpa using hget
      simp [updateAction, ha, List.set_cons_succ, ih n hfind' hget']

/-- C4: on a table containing a matching row, `update(id, fields)`
overwrites exactly the five form fields of the first matched row — which
indeed has the requested id — leaves its `id`, `noofpatients` and
`breach_binary` cells with their previous values, and leaves every other
row of the table untouched. -/
theorem update_scoped (patient_id : String) (f : UpdateFields)
    (t : List PatientRecord) (ti : PatientRecord)
    (hmatch : t[t.findIdx (fun r => r.id = patient_id)]? = some ti) :
    ti.id = patient_id ∧
    updateAction patient_id f t
      = t.set (t.findIdx (fun r => r.id = patient_id)) (applyUpdate f ti) ∧
    (updateAction patient_id f t)[t.findIdx (fun r => r.id = patient_id)]?
      = some (applyUpdate f ti) ∧
    (∀ j, ¬ j = t.findIdx (fun r => r.id = patient_id) →
      (updateAction patient_id f t)[j]? = t[j]?) ∧
    (∀ r : PatientRecord,
      (applyUpdate f r).age = f.age ∧ (applyUpdate f r).los = f.los ∧
      (applyUpdate f r).noofinvestigation = f.noofinvestigation ∧
      (applyUpdate f r).nooftreatment = f.nooftreatment ∧
      (applyUpdate f r).breachornot = f.breachornot ∧
      (applyUpdate f r).id = r.id ∧
      (applyUpdate f r).noofpatients = r.noofpatients ∧
      (applyUpdate f r).breach_binary = r.breach_binary) := by
  obtain ⟨hlt, hgot⟩ := List.getElem?_eq_some.mp hmatch
  have hset : updateAction patient_id f t
      = t.set (t.findIdx (fun r => r.id = patient_id)) (applyUpdate f ti) :=
    updateAction_eq_set patient_id f t _ ti rfl hmatch
  refine ⟨?_, hset, ?_, ?_, ?_⟩
  · have hp := @List.findIdx_getElem _ (fun r => decide (r.id = patient_id)) t hlt
    rw [hgot] at hp
    exact of_decide_eq_true hp
  · rw [hset]
    simp [List.getElem?_set, hlt]
  · intro j hj
    rw [hset]
    exact List.getElem?_set_ne (fun h => hj h.symm)
  · intro r
    exact ⟨rfl, rfl, rfl, rfl, rfl, rfl, rfl, rfl⟩

/-- Witness for C4: `update_scoped` on the three-row table at id `P2`; the
first-match hypothesis is discharged by `decide` and the row-replacement
conjunct is extracted. -/
theorem update_scoped_witness :
    updateAction "P2" sampleFields threeRows
      = threeRows.set (threeRows.findIdx fun r => r.id = "P2")
          (applyUpdate sampleFields
            { id := "P2", age := 41, los := 20, noofinvestigation := 2,
              nooftreatment := 0, noofpatients := 6, breachornot := "breach",
              breach_binary := some 1 }) :=
  (update_scoped "P2" sampleFields threeRows
    { id := "P2", age := 41, los := 20, noofinvestigation := 2,
      nooftreatment := 0, noofpatients := 6, breachornot := "breach",
      breach_binary := some 1 } (by decide)).2.1

/-- The header of the original backing file `AED4weeks.csv` (§6 of the
spec): the seven base columns. -/
def baseColumns : List String :=
  ["ID", "Age", "LoS", "noofinvestigation", "nooftreatment",
   "noofpatients", "Breachornot"]

/-- Effect of line 37 on the dataframe's column list:
`df["Breach_binary"] = ...` overwrites the column in place when it already
exists and appends it at the end otherwise. -/
def addDerivedColumn (cols : List String) : List String :=
  if "Breach_binary" ∈ cols then cols else cols ++ ["Breach_binary"]

/-- Columns written by `df.to_csv(..., index=False)` (lines 185 and 209):
every column of the dataframe, in dataframe order — nothing is dropped. -/
def toCsvColumns (dfCols : List String) : List String :=
  dfCols

/-- The whole Update Record handler (lines 174–186): overwrite the five
cells of the first matching row, write the full dataframe to
`AED4weeks_temp.csv`, then `os.replace` it over the backing file. -/
def updateAndPersist (patient_id : String) (f : UpdateFields)
    (s : StoreState) : StoreState :=
  { table := updateAction patient_id f s.table
  , file := persistTable (updateAction patient_id f s.table) }

/-- Counterexample to C5: the file written by either persisting path after
load carries the derived `Breach_binary` column — its column list is not
the original seven-column header. -/
theorem toCsv_writes_breach_column :
    "Breach_binary" ∈ toCsvColumns (addDerivedColumn baseColumns) ∧
    ¬ toCsvColumns (addDerivedColumn baseColumns) = baseColumns := by
  decide

/-- C5 amended: `breach_binary` is computed at load time, but every
persisting operation writes the full in-memory dataframe: the written
columns are the seven original ones plus `Breach_binary`, the file written
by the update path is the updated table field-for-field (derived cell
included), and the file written by a confirmed matched delete is the
remaining table field-for-field (derived cell included). -/
theorem persist_includes_derived (patient_id : String) (f : UpdateFields)
    (s : StoreState) :
    toCsvColumns (addDerivedColumn baseColumns)
      = baseColumns ++ ["Breach_binary"] ∧
    (updateAndPersist patient_id f s).file
      = updateAction patient_id f s.table ∧
    ((∃ r ∈ s.table, r.id = patient_id) →
      (deleteAction true patient_id s).2.file
        = s.table.filter (fun r => ¬ r.id = patient_id)) := by
  refine ⟨by decide, rfl, ?_⟩
  intro h
  have hany : (s.table.any fun r => r.id = patient_id) = true := by
    simp only [List.any_eq_true, decide_eq_true_eq]
    exact h
  simp [deleteAction, hany, persistTable]

/-- Witness for C5 (amended): `persist_includes_derived` at a concrete
store whose delete-path hypothesis is discharged by `decide`. -/
theorem persist_includes_derived_witness :
    (deleteAction true "P1" { table := threeRows, file := threeRows }).2.file
      = threeRows.filter (fun r => ¬ r.id = "P1") :=
  (persist_includes_derived "P1" sampleFields
    { table := threeRows, file := threeRows }).2.2 (by decide)

/-- A row whose derived cell has its load-time value is unchanged by the
load-time derivation. -/
theorem deriveRow_eq_self (r : PatientRecord)
    (h : r.breach_binary = breachMap r.breachornot) : deriveRow r = r := by
  cases r
  simp only [deriveRow] at h ⊢
  simp_all

/-- C6: for every non-empty table whose fields are within the declared
types — in particular `breach_binary` holds its declared derived value
(§3: a derived integer mirroring `breach_status`) — `persist()` followed by
`load()` reproduces the identical table: same rows, same field values, same
row order; and the file written by `persist()` is the in-memory table
field-for-field in the table's row order. -/
theorem persist_load_roundtrip (t : List PatientRecord)
    (_hne : ¬ t = [])
    (hder : ∀ r ∈ t, r.breach_binary = breachMap r.breachornot) :
    loadTable (persistTable t) = t ∧ persistTable t = t := by
  refine ⟨?_, rfl⟩
  show t.map deriveRow = t
  calc t.map deriveRow = t.map id := by
        apply List.map_congr_left
        intro a ha
        exact deriveRow_eq_self a (hder a ha)
    _ = t := List.map_id t

/-- Witness for C6: `persist_load_roundtrip` on the concrete loaded
three-row table; non-emptiness and the derived-cell hypothesis are
discharged by `decide`. -/
theorem persist_load_roundtrip_witness :
    loadTable (persistTable threeRows) = threeRows ∧
    persistTable threeRows = threeRows :=
  persist_load_roundtrip threeRows (by decide) (by decide)
